import Mathlib

/-!
Shallow embedding of the API Management Tag resource of this repository:
the identifier codec of azurerm/internal/services/apimanagement/parse/tag.go
and the CRUD reconciler of
azurerm/internal/services/apimanagement/api_management_tag_resource.go.
Go strings are modelled as lists of characters so that rendering and
splitting can be reasoned about by induction.
-/

namespace AzureRM

/-- Go strings are modelled as lists of characters. -/
abbrev Str : Type := List Char

/-- Coerces a Lean string literal into the character-list model. -/
def chars (s : String) : Str := s.data

/-- Modelled from the spec: the segment splitter used by
azure.ParseAzureResourceID (helpers/azure, which is not under src/).
Splits on the slash character with Go strings.Split semantics. -/
def splitOnSlash : Str → List Str
  | [] => [[]]
  | c :: rest =>
    if c = '/' then [] :: splitOnSlash rest
    else
      match splitOnSlash rest with
      | [] => [[c]]
      | s :: ss => (c :: s) :: ss

/-- Modelled from the spec: a resource ID path starts with a slash, which
is removed before splitting the path into segments. -/
def stripLeadingSlash : Str → Str
  | [] => []
  | c :: rest => if c = '/' then rest else c :: rest

/-- Modelled from the spec: groups the path components into alternating
type/value segment pairs; none when the component count is odd. -/
def pairUp : List Str → Option (List (Str × Str))
  | [] => some []
  | [_] => none
  | k :: v :: rest => (pairUp rest).map (fun ps => (k, v) :: ps)

/-- The alternating type/value segment pairs of a resource ID string. -/
def segPairs (input : Str) : Option (List (Str × Str)) :=
  pairUp (splitOnSlash (stripLeadingSlash input))

/-- Lowercases every character of a segment key: segment key matching is
case-insensitive while segment values are case-sensitive. -/
def lowerStr (s : Str) : Str := s.map Char.toLower

/-- Lowercases the key of one segment pair, leaving the value untouched. -/
def lowerPair (p : Str × Str) : Str × Str := (lowerStr p.1, p.2)

/-- First binding of a key in the segment mapping. -/
def lookupKey (k : Str) : List (Str × Str) → Option Str
  | [] => none
  | p :: rest => if p.1 = k then some p.2 else lookupKey k rest

/-- Removes the binding found by lookupKey from the segment mapping. -/
def removeKey (k : Str) : List (Str × Str) → List (Str × Str)
  | [] => []
  | p :: rest => if p.1 = k then rest else p :: removeKey k rest

/-- Modelled from the spec: the intermediate result of
azure.ParseAzureResourceID (helpers/azure, not under src/): the well-known
values plus the mapping of the segments not yet consumed. -/
structure AzureResourceID where
  subscriptionID : Str
  resourceGroup : Str
  provider : Str
  path : List (Str × Str)
deriving DecidableEq

/-- Modelled from the spec: the value extracted for a well-known segment
key, empty when the key is absent (emptiness is checked by the callers). -/
def extractVal (k : Str) (m : List (Str × Str)) : Str :=
  match lookupKey k m with
  | some v => v
  | none => []

/-- Modelled from the spec: the segment mapping after consuming a
well-known segment key, unchanged when the key is absent. -/
def extractRest (k : Str) (m : List (Str × Str)) : List (Str × Str) :=
  match lookupKey k m with
  | some _ => removeKey k m
  | none => m

/-- Modelled from the spec: extracts the well-known subscriptions,
resourceGroups and providers values from the lowercased segment mapping,
consuming each key that is present. -/
def buildFromPath (path : List (Str × Str)) : AzureResourceID :=
  ⟨extractVal (chars "subscriptions") path,
   extractVal (chars "resourcegroups") (extractRest (chars "subscriptions") path),
   extractVal (chars "providers")
     (extractRest (chars "resourcegroups") (extractRest (chars "subscriptions") path)),
   extractRest (chars "providers")
     (extractRest (chars "resourcegroups") (extractRest (chars "subscriptions") path))⟩

/-- Modelled from the spec: builds the segment mapping with keys
lowercased and values untouched, then extracts the well-known values. -/
def buildResourceID (pairs : List (Str × Str)) : AzureResourceID :=
  buildFromPath (pairs.map lowerPair)

/-- Modelled from the spec: azure.ParseAzureResourceID (helpers/azure, not
under src/).  Splits the input into alternating type/value path segments,
failing when the segments do not pair up or when a key or value segment is
empty; segment keys are matched case-insensitively. -/
def ParseAzureResourceID (input : Str) : Except Str AzureResourceID :=
  match segPairs input with
  | none =>
    .error (chars "the number of path segments is not divisible by 2 in " ++ input)
  | some pairs =>
    if pairs.any (fun p => p.1.isEmpty || p.2.isEmpty) then
      .error (chars "key and value segments cannot be empty strings in " ++ input)
    else
      .ok (buildResourceID pairs)

/-- Modelled from the spec: AzureResourceID.PopSegment removes the segment
with the given key, matched case-insensitively, returning its value and
failing when the key is absent. -/
def AzureResourceID.PopSegment (id : AzureResourceID) (name : Str) :
    Except Str (Str × AzureResourceID) :=
  match lookupKey (lowerStr name) id.path with
  | none => .error (chars "ID was missing the " ++ name ++ chars " element")
  | some v => .ok (v, { id with path := removeKey (lowerStr name) id.path })

/-- Modelled from the spec: AzureResourceID.ValidateNoEmptySegments
requires that zero segments remain unconsumed, failing with the first
unexpected segment key otherwise. -/
def AzureResourceID.ValidateNoEmptySegments (id : AzureResourceID) (input : Str) :
    Except Str Unit :=
  match id.path with
  | [] => .ok ()
  | (k, _) :: _ =>
    .error (chars "ID contained more segments than required, first unexpected segment "
      ++ k ++ chars " in " ++ input)

/-- The TagId struct of parse/tag.go.  The generated file has only these
three fields: there is no ServiceName field, although the resource code
dereferences one. -/
structure TagId where
  subscriptionId : Str
  resourceGroup : Str
  name : Str
deriving DecidableEq

/-- NewTagID of parse/tag.go: builds a TagId from its fields, with no
validation of any kind. -/
def NewTagID (subscriptionId resourceGroup name : Str) : TagId :=
  ⟨subscriptionId, resourceGroup, name⟩

/-- TagId.ID of parse/tag.go: renders the canonical identifier string
/subscriptions/{sub}/resourceGroups/{rg}/providers/Microsoft.AnalysisServices/tags/{name}. -/
def TagId.ID (id : TagId) : Str :=
  chars "/subscriptions/" ++ (id.subscriptionId ++ (chars "/resourceGroups/"
    ++ (id.resourceGroup ++ (chars "/providers/Microsoft.AnalysisServices/tags/" ++ id.name))))

/-- The checks of TagID in parse/tag.go downstream of ParseAzureResourceID:
require non-empty subscriptions and resourceGroups values, pop the tags
segment as the name, and require that no segments are left over.  The
quotes that the Go error text puts around the element names are omitted. -/
def tagIDChecks (input : Str) (id : AzureResourceID) : Except Str TagId :=
  if id.subscriptionID = [] then
    .error (chars "ID was missing the subscriptions element")
  else if id.resourceGroup = [] then
    .error (chars "ID was missing the resourceGroups element")
  else
    match id.PopSegment (chars "tags") with
    | .error e => .error e
    | .ok (name, id1) =>
      match id1.ValidateNoEmptySegments input with
      | .error e => .error e
      | .ok _ => .ok ⟨id.subscriptionID, id.resourceGroup, name⟩

/-- TagID of parse/tag.go: parses a Tag ID string into a TagId. -/
def TagID (input : Str) : Except Str TagId :=
  match ParseAzureResourceID input with
  | .error e => .error e
  | .ok id => tagIDChecks input id

/-- The success projection of a fallible result. -/
def exceptOk {ε α : Type} : Except ε α → Option α
  | .ok a => some a
  | .error _ => none

/-- Joins path segments with slash separators (inverse of the splitter). -/
def joinSlash : List Str → Str
  | [] => []
  | [s] => s
  | s :: rest => s ++ '/' :: joinSlash rest

/-- Flattens segment pairs back into the alternating component list. -/
def interleave : List (Str × Str) → List Str
  | [] => []
  | p :: rest => p.1 :: p.2 :: interleave rest

/-- Modelled from the spec: the four-field ResourceIdentity of spec
section 3.  The resource code dereferences id.ServiceName on the result of
parse.TagID, a field the generated TagId under src lacks, so the identity
the reconciler operates on is modelled from the spec. -/
structure ResourceIdentity where
  subscriptionId : Str
  resourceGroup : Str
  serviceName : Str
  name : Str
deriving DecidableEq

/-- Modelled from the spec: the four-field parse the resource code
assumes: like TagID, but additionally popping the service segment to
obtain the parent service name. -/
def parseResourceIdentity (input : Str) : Except Str ResourceIdentity :=
  match ParseAzureResourceID input with
  | .error e => .error e
  | .ok id =>
    if id.subscriptionID = [] then
      .error (chars "ID was missing the subscriptions element")
    else if id.resourceGroup = [] then
      .error (chars "ID was missing the resourceGroups element")
    else
      match id.PopSegment (chars "service") with
      | .error e => .error e
      | .ok (serviceName, id1) =>
        match id1.PopSegment (chars "tags") with
        | .error e => .error e
        | .ok (name, id2) =>
          match id2.ValidateNoEmptySegments input with
          | .error e => .error e
          | .ok _ => .ok ⟨id.subscriptionID, id.resourceGroup, serviceName, name⟩

/-- Modelled from the spec: the result of the remote get call of spec
section 6.  err models a non-nil Go error, notFound models
utils.ResponseWasNotFound on the response, id models the ID pointer of the
response, displayName models the DisplayName of a present
TagContractProperties sub-structure. -/
structure GetResult where
  err : Bool
  notFound : Bool
  id : Option Str
  displayName : Option Str
deriving DecidableEq

/-- Modelled from the spec: the result of a mutating remote call. -/
structure OpResult where
  err : Bool
  notFound : Bool
deriving DecidableEq

/-- Modelled from the spec: the injected remote tag client of spec
section 6 (the azure-sdk TagClient is not under src/). -/
structure TagClient where
  get : Str → Str → Str → GetResult
  createOrUpdate : Str → Str → Str → Str → OpResult
  delete : Str → Str → Str → OpResult

/-- One remote call issued by the reconciler, recorded in the call trace. -/
inductive RemoteCall where
  | get (resourceGroup serviceName name : Str)
  | createOrUpdate (resourceGroup serviceName name displayName : Str)
  | delete (resourceGroup serviceName name : Str)
deriving DecidableEq

/-- The pluginsdk ResourceData fields this resource touches: the durable
handle d.Id plus the schema attributes, and the IsNewResource flag. -/
structure ResourceData where
  id : Str
  tag_id : Str
  resource_group_name : Str
  api_management_name : Str
  display_name : Str
  isNewResource : Bool
deriving DecidableEq

/-- The reconciler error taxonomy of spec section 7 mapped onto the error
results of api_management_tag_resource.go: alreadyExists is
tf.ImportAsExistsError, emptyIdentity is the Cannot read ID error,
malformedIdentifier is a propagated parse error, and remoteCallFailed
wraps every other remote failure. -/
inductive ReconcileErr where
  | malformedIdentifier (msg : Str)
  | alreadyExists (resourceType : Str) (id : Str)
  | remoteCallFailed (msg : Str)
  | emptyIdentity (msg : Str)
deriving DecidableEq

/-- An operation outcome: the resource state after the call, the error if
any, and the trace of remote calls issued. -/
abbrev Outcome : Type := ResourceData × Option ReconcileErr × List RemoteCall

/-- resourceApiManagementTagRead of api_management_tag_resource.go. -/
def resourceApiManagementTagRead (client : TagClient) (d : ResourceData) : Outcome :=
  match parseResourceIdentity d.id with
  | .error e => (d, some (.malformedIdentifier e), [])
  | .ok id =>
    let resourceGroup := id.resourceGroup
    let serviceName := id.serviceName
    let tagID := id.name
    let resp := client.get resourceGroup serviceName tagID
    let calls := [RemoteCall.get resourceGroup serviceName tagID]
    if resp.err then
      if resp.notFound then
        ({ d with id := [] }, none, calls)
      else
        (d, some (.remoteCallFailed (chars "making Read request on Tag " ++ tagID)), calls)
    else
      let d1 := { d with tag_id := tagID, api_management_name := serviceName,
                         resource_group_name := resourceGroup }
      let d2 :=
        match resp.displayName with
        | some dn => { d1 with display_name := dn }
        | none => d1
      (d2, none, calls)

/-- resourceApiManagementTagDelete of api_management_tag_resource.go. -/
def resourceApiManagementTagDelete (client : TagClient) (d : ResourceData) : Outcome :=
  match parseResourceIdentity d.id with
  | .error e => (d, some (.malformedIdentifier e), [])
  | .ok id =>
    let resp := client.delete id.resourceGroup id.serviceName id.name
    let calls := [RemoteCall.delete id.resourceGroup id.serviceName id.name]
    if resp.err && !resp.notFound then
      (d, some (.remoteCallFailed (chars "deleting Tag " ++ id.name)), calls)
    else
      (d, none, calls)

/-- resourceApiManagementTagCreateUpdate of api_management_tag_resource.go.
The trailing call to resourceApiManagementAPIPolicyRead is repository code
that is not under src/, so it is passed in as the tailRead argument. -/
def resourceApiManagementTagCreateUpdate (client : TagClient)
    (tailRead : ResourceData → Outcome) (d : ResourceData) : Outcome :=
  let tagID := d.tag_id
  let resourceGroup := d.resource_group_name
  let serviceName := d.api_management_name
  let displayName := d.display_name
  let guard : Option ReconcileErr × List RemoteCall :=
    if d.isNewResource then
      let existing := client.get resourceGroup serviceName tagID
      let e : Option ReconcileErr :=
        if existing.err && !existing.notFound then
          some (.remoteCallFailed (chars "checking for presence of existing Tag " ++ tagID))
        else
          match existing.id with
          | some s =>
            if s = [] then none
            else some (.alreadyExists (chars "azurerm_api_management_tag") s)
          | none => none
      (e, [RemoteCall.get resourceGroup serviceName tagID])
    else (none, [])
  match guard.1 with
  | some e => (d, some e, guard.2)
  | none =>
    let cr := client.createOrUpdate resourceGroup serviceName tagID displayName
    let calls1 := guard.2 ++ [RemoteCall.createOrUpdate resourceGroup serviceName tagID displayName]
    if cr.err then
      (d, some (.remoteCallFailed (chars "creating or updating Tag " ++ tagID)), calls1)
    else
      let resp := client.get resourceGroup serviceName tagID
      let calls2 := calls1 ++ [RemoteCall.get resourceGroup serviceName tagID]
      if resp.err then
        (d, some (.remoteCallFailed (chars "retrieving Tag " ++ tagID)), calls2)
      else
        match resp.id with
        | none => (d, some (.emptyIdentity (chars "Cannot read ID for Tag " ++ tagID)), calls2)
        | some s =>
          let d1 := { d with id := s }
          let r := tailRead d1
          (r.1, r.2.1, calls2 ++ r.2.2)

/-! Helper lemmas about the segment splitter and the segment mapping. -/

theorem splitOnSlash_no_slash (a : Str) (h : '/' ∉ a) : splitOnSlash a = [a] := by
  induction a with
  | nil => rfl
  | cons c rest ih =>
    simp only [List.mem_cons, not_or] at h
    obtain ⟨h1, h2⟩ := h
    have hc : ¬ c = '/' := fun hh => h1 hh.symm
    simp [splitOnSlash, hc, ih h2]

theorem splitOnSlash_append (a b : Str) (h : '/' ∉ a) :
    splitOnSlash (a ++ '/' :: b) = a :: splitOnSlash b := by
  induction a with
  | nil => simp [splitOnSlash]
  | cons c rest ih =>
    simp only [List.mem_cons, not_or] at h
    obtain ⟨h1, h2⟩ := h
    have hc : ¬ c = '/' := fun hh => h1 hh.symm
    simp [splitOnSlash, hc, ih h2]

theorem splitOnSlash_joinSlash (segs : List Str) (hne : segs ≠ [])
    (h : ∀ s ∈ segs, '/' ∉ s) : splitOnSlash (joinSlash segs) = segs := by
  induction segs with
  | nil => exact absurd rfl hne
  | cons s rest ih =>
    cases rest with
    | nil => simpa [joinSlash] using splitOnSlash_no_slash s (h s (by simp))
    | cons t ts =>
      have hj : joinSlash (s :: t :: ts) = s ++ '/' :: joinSlash (t :: ts) := rfl
      rw [hj, splitOnSlash_append s _ (h s (by simp)),
        ih (by simp) (fun x hx => h x (List.mem_cons_of_mem s hx))]

theorem pairUp_interleave (ps : List (Str × Str)) : pairUp (interleave ps) = some ps := by
  induction ps with
  | nil => rfl
  | cons p rest ih => simp [interleave, pairUp, ih]

theorem lookupKey_eq_none (k : Str) (m : List (Str × Str)) (h : ∀ p ∈ m, p.1 ≠ k) :
    lookupKey k m = none := by
  induction m with
  | nil => rfl
  | cons p rest ih =>
    simp [lookupKey, h p (by simp), ih (fun q hq => h q (List.mem_cons_of_mem p hq))]

theorem lookupKey_mem (k : Str) (m : List (Str × Str)) (v : Str)
    (h : lookupKey k m = some v) : (k, v) ∈ m := by
  induction m with
  | nil => simp [lookupKey] at h
  | cons p rest ih =>
    by_cases hp : p.1 = k
    · rw [show lookupKey k (p :: rest) = some p.2 from by simp [lookupKey, hp]] at h
      obtain rfl := Option.some.inj h
      exact List.mem_cons.mpr (Or.inl (by rw [← hp]))
    · rw [show lookupKey k (p :: rest) = lookupKey k rest from by simp [lookupKey, hp]] at h
      exact List.mem_cons_of_mem p (ih h)

theorem mem_removeKey (k : Str) (m : List (Str × Str)) (q : Str × Str)
    (h : q ∈ removeKey k m) : q ∈ m := by
  induction m with
  | nil => simp [removeKey] at h
  | cons p rest ih =>
    by_cases hp : p.1 = k
    · simp only [removeKey, if_pos hp] at h
      exact List.mem_cons_of_mem p h
    · simp only [removeKey, if_neg hp, List.mem_cons] at h
      rcases h with h | h
      · simp [h]
      · exact List.mem_cons_of_mem p (ih h)

theorem mem_removeKey_of_ne (k : Str) (m : List (Str × Str)) (q : Str × Str)
    (hq : q ∈ m) (hne : q.1 ≠ k) : q ∈ removeKey k m := by
  induction m with
  | nil => simp at hq
  | cons p rest ih =>
    by_cases hp : p.1 = k
    · simp only [removeKey, if_pos hp]
      rcases List.mem_cons.mp hq with h | h
      · exact absurd (h ▸ hp) hne
      · exact h
    · simp only [removeKey, if_neg hp, List.mem_cons]
      rcases List.mem_cons.mp hq with h | h
      · exact Or.inl h
      · exact Or.inr (ih h)

theorem mem_interleave (ps : List (Str × Str)) (x : Str) (h : x ∈ interleave ps) :
    ∃ p ∈ ps, x = p.1 ∨ x = p.2 := by
  induction ps with
  | nil => simp [interleave] at h
  | cons p rest ih =>
    simp only [interleave, List.mem_cons] at h
    rcases h with h | h | h
    · exact ⟨p, by simp, Or.inl h⟩
    · exact ⟨p, by simp, Or.inr h⟩
    · obtain ⟨q, hq, hh⟩ := ih h
      exact ⟨q, by simp [hq], hh⟩

theorem stripLeadingSlash_cons (x : Str) : stripLeadingSlash ('/' :: x) = x := rfl

theorem lookupKey_isSome (k : Str) (m : List (Str × Str)) (h : ∃ p ∈ m, p.1 = k) :
    ∃ v, lookupKey k m = some v := by
  induction m with
  | nil => simp at h
  | cons p rest ih =>
    by_cases hp : p.1 = k
    · exact ⟨p.2, by simp [lookupKey, hp]⟩
    · obtain ⟨q, hq, hqk⟩ := h
      rcases List.mem_cons.mp hq with rfl | hq2
      · exact absurd hqk hp
      · obtain ⟨v, hv⟩ := ih ⟨q, hq2, hqk⟩
        exact ⟨v, by simp [lookupKey, hp, hv]⟩

theorem mem_extractRest (k : Str) (m : List (Str × Str)) (q : Str × Str)
    (h : q ∈ extractRest k m) : q ∈ m := by
  unfold extractRest at h
  cases hl : lookupKey k m with
  | none => simp only [hl] at h; exact h
  | some v => simp only [hl] at h; exact mem_removeKey k m q h

theorem pair_ne_nil_of_any_eq_false (ps : List (Str × Str))
    (hany : ps.any (fun p => p.1.isEmpty || p.2.isEmpty) = false)
    (p : Str × Str) (hp : p ∈ ps) : p.1 ≠ [] ∧ p.2 ≠ [] := by
  by_cases h : (p.1.isEmpty || p.2.isEmpty) = true
  · exfalso
    have hh : ps.any (fun q => q.1.isEmpty || q.2.isEmpty) = true :=
      List.any_eq_true.mpr ⟨p, hp, h⟩
    rw [hh] at hany
    simp at hany
  · have hf : (p.1.isEmpty || p.2.isEmpty) = false := by simpa using h
    rw [Bool.or_eq_false_iff] at hf
    obtain ⟨ha, hb⟩ := hf
    constructor
    · intro hcon; rw [hcon] at ha; simp at ha
    · intro hcon; rw [hcon] at hb; simp at hb

theorem lookup_val_ne_nil (ps : List (Str × Str)) (k v : Str)
    (hany : ps.any (fun p => p.1.isEmpty || p.2.isEmpty) = false)
    (hmem : (k, v) ∈ ps.map lowerPair) : v ≠ [] := by
  obtain ⟨p, hp, hpe⟩ := List.mem_map.mp hmem
  have hv : p.2 = v := congrArg Prod.snd hpe
  rw [← hv]
  exact (pair_ne_nil_of_any_eq_false ps hany p hp).2

theorem lowerStr_isEmpty (s : Str) : (lowerStr s).isEmpty = s.isEmpty := by
  cases s <;> rfl

theorem any_empty_lowerPair (ps : List (Str × Str)) :
    (ps.map lowerPair).any (fun p => p.1.isEmpty || p.2.isEmpty)
      = ps.any (fun p => p.1.isEmpty || p.2.isEmpty) := by
  induction ps with
  | nil => rfl
  | cons p rest ih => simp [lowerPair, lowerStr_isEmpty, ih]

theorem exceptOk_tagIDChecks (in1 in2 : Str) (id : AzureResourceID) :
    exceptOk (tagIDChecks in1 id) = exceptOk (tagIDChecks in2 id) := by
  unfold tagIDChecks
  by_cases h1 : id.subscriptionID = []
  · simp [h1, exceptOk]
  · by_cases h2 : id.resourceGroup = []
    · simp [h1, h2, exceptOk]
    · cases hp : id.PopSegment (chars "tags") with
      | error e => simp [h1, h2, hp, exceptOk]
      | ok pr =>
        cases hpath : pr.2.path with
        | nil =>
          simp [h1, h2, hp, AzureResourceID.ValidateNoEmptySegments, hpath, exceptOk]
        | cons q qs =>
          simp [h1, h2, hp, AzureResourceID.ValidateNoEmptySegments, hpath, exceptOk]

theorem tagIDChecks_missing_subs (input : Str) (id : AzureResourceID)
    (h : id.subscriptionID = []) :
    tagIDChecks input id = .error (chars "ID was missing the subscriptions element") := by
  unfold tagIDChecks
  rw [if_pos h]

theorem tagIDChecks_missing_rgs (input : Str) (id : AzureResourceID)
    (h1 : id.subscriptionID ≠ []) (h2 : id.resourceGroup = []) :
    tagIDChecks input id = .error (chars "ID was missing the resourceGroups element") := by
  unfold tagIDChecks
  rw [if_neg h1, if_pos h2]

theorem tagIDChecks_missing_tags (input : Str) (id : AzureResourceID)
    (h1 : id.subscriptionID ≠ []) (h2 : id.resourceGroup ≠ [])
    (h3 : lookupKey (chars "tags") id.path = none) :
    tagIDChecks input id = .error (chars "ID was missing the tags element") := by
  unfold tagIDChecks AzureResourceID.PopSegment
  rw [if_neg h1, if_neg h2, show lowerStr (chars "tags") = chars "tags" from rfl, h3]
  rfl

/-! Claim theorems. -/

/-- C1 (amended): for every TagId whose three fields are non-empty and
contain no slash character, parsing the rendered canonical string yields
the original identity back. -/
theorem TagID_roundTrip (id : TagId)
    (hs : id.subscriptionId ≠ []) (hg : id.resourceGroup ≠ []) (hn : id.name ≠ [])
    (ns : '/' ∉ id.subscriptionId) (ng : '/' ∉ id.resourceGroup) (nn : '/' ∉ id.name) :
    TagID id.ID = .ok id := by
  obtain ⟨s, g, n⟩ := id
  obtain ⟨sc, st, rfl⟩ := List.exists_cons_of_ne_nil hs
  obtain ⟨gc, gt, rfl⟩ := List.exists_cons_of_ne_nil hg
  obtain ⟨nc, nt, rfl⟩ := List.exists_cons_of_ne_nil hn
  have hsplit : splitOnSlash (stripLeadingSlash (TagId.ID ⟨sc :: st, gc :: gt, nc :: nt⟩))
      = [chars "subscriptions", sc :: st, chars "resourceGroups", gc :: gt,
         chars "providers", chars "Microsoft.AnalysisServices", chars "tags", nc :: nt] := by
    show splitOnSlash (joinSlash
      [chars "subscriptions", sc :: st, chars "resourceGroups", gc :: gt,
       chars "providers", chars "Microsoft.AnalysisServices", chars "tags", nc :: nt]) = _
    refine splitOnSlash_joinSlash _ (by simp) ?_
    intro x hx
    simp only [List.mem_cons, List.not_mem_nil, or_false] at hx
    rcases hx with rfl | rfl | rfl | rfl | rfl | rfl | rfl | rfl <;>
      first
      | exact ns
      | exact ng
      | exact nn
      | decide
  unfold TagID ParseAzureResourceID segPairs
  rw [hsplit]
  rfl

/-- Witness for C1: the round trip at a concrete identity. -/
theorem TagID_roundTrip_witness :
    TagID (TagId.ID ⟨chars "sub1", chars "rg1", chars "tag1"⟩)
      = .ok ⟨chars "sub1", chars "rg1", chars "tag1"⟩ :=
  TagID_roundTrip ⟨chars "sub1", chars "rg1", chars "tag1"⟩
    (by decide) (by decide) (by decide) (by decide) (by decide) (by decide)

/-- Counterexample for C1 as stated: an identity whose fields are all
non-empty but whose subscription id contains a slash renders to a string
that does not parse at all, so parse of render does not return the
identity. -/
theorem TagID_roundTrip_cex :
    (chars "a/b" ≠ [] ∧ chars "rg" ≠ [] ∧ chars "n" ≠ []) ∧
      exceptOk (TagID ((NewTagID (chars "a/b") (chars "rg") (chars "n")).ID)) = none :=
  ⟨by decide, rfl⟩

/-- C3: appending one extra type/value segment pair to a rendered
canonical identifier makes parsing fail (the unconsumed leftover segment
is rejected), so no identity is ever returned. -/
theorem TagID_extraSegment (id : TagId) (k v : Str)
    (hs : id.subscriptionId ≠ []) (hg : id.resourceGroup ≠ []) (hn : id.name ≠ [])
    (ns : '/' ∉ id.subscriptionId) (ng : '/' ∉ id.resourceGroup) (nn : '/' ∉ id.name)
    (hk : k ≠ []) (hv : v ≠ []) (nk : '/' ∉ k) (nv : '/' ∉ v) :
    exceptOk (TagID (id.ID ++ ('/' :: (k ++ ('/' :: v))))) = none := by
  obtain ⟨s, g, n⟩ := id
  obtain ⟨sc, st, rfl⟩ := List.exists_cons_of_ne_nil hs
  obtain ⟨gc, gt, rfl⟩ := List.exists_cons_of_ne_nil hg
  obtain ⟨nc, nt, rfl⟩ := List.exists_cons_of_ne_nil hn
  obtain ⟨kc, kt, rfl⟩ := List.exists_cons_of_ne_nil hk
  obtain ⟨vc, vt, rfl⟩ := List.exists_cons_of_ne_nil hv
  have h0 : TagId.ID ⟨sc :: st, gc :: gt, nc :: nt⟩ ++ ('/' :: ((kc :: kt) ++ ('/' :: (vc :: vt))))
      = '/' :: joinSlash
          [chars "subscriptions", sc :: st, chars "resourceGroups", gc :: gt,
           chars "providers", chars "Microsoft.AnalysisServices", chars "tags", nc :: nt,
           kc :: kt, vc :: vt] := by
    simp only [TagId.ID, List.append_assoc]
    rfl
  have hsplit : splitOnSlash (stripLeadingSlash
      (TagId.ID ⟨sc :: st, gc :: gt, nc :: nt⟩ ++ ('/' :: ((kc :: kt) ++ ('/' :: (vc :: vt))))))
      = [chars "subscriptions", sc :: st, chars "resourceGroups", gc :: gt,
         chars "providers", chars "Microsoft.AnalysisServices", chars "tags", nc :: nt,
         kc :: kt, vc :: vt] := by
    rw [h0, stripLeadingSlash_cons]
    refine splitOnSlash_joinSlash _ (by simp) ?_
    intro x hx
    simp only [List.mem_cons, List.not_mem_nil, or_false] at hx
    rcases hx with rfl | rfl | rfl | rfl | rfl | rfl | rfl | rfl | rfl | rfl <;>
      first
      | exact ns
      | exact ng
      | exact nn
      | exact nk
      | exact nv
      | decide
  unfold TagID ParseAzureResourceID segPairs
  rw [hsplit]
  rfl

/-- Witness for C3: a concrete canonical identifier with one extra
service/svc1 segment pair appended fails to parse. -/
theorem TagID_extraSegment_witness :
    exceptOk (TagID (chars "/subscriptions/sub1/resourceGroups/rg1/providers/Microsoft.AnalysisServices/tags/tag1/service/svc1")) = none :=
  TagID_extraSegment ⟨chars "sub1", chars "rg1", chars "tag1"⟩ (chars "service") (chars "svc1")
    (by decide) (by decide) (by decide) (by decide) (by decide) (by decide)
    (by decide) (by decide) (by decide) (by decide)

/-- C4: an input whose segments pair up but that lacks the subscriptions
segment fails with the missing-subscriptions error; one that has
subscriptions but lacks resourceGroups fails with the
missing-resourceGroups error; one that lacks the tags segment fails with
the missing-tags error; and one with an empty key or value segment fails
as well.  In every case no identity is returned. -/
theorem TagID_missingSegments (input : Str) (ps : List (Str × Str))
    (hps : segPairs input = some ps) :
    (ps.any (fun p => p.1.isEmpty || p.2.isEmpty) = true →
        TagID input
          = .error (chars "key and value segments cannot be empty strings in " ++ input))
    ∧ (ps.any (fun p => p.1.isEmpty || p.2.isEmpty) = false →
        (∀ p ∈ ps, lowerStr p.1 ≠ chars "subscriptions") →
        TagID input = .error (chars "ID was missing the subscriptions element"))
    ∧ (ps.any (fun p => p.1.isEmpty || p.2.isEmpty) = false →
        (∃ p ∈ ps, lowerStr p.1 = chars "subscriptions") →
        (∀ p ∈ ps, lowerStr p.1 ≠ chars "resourcegroups") →
        TagID input = .error (chars "ID was missing the resourceGroups element"))
    ∧ (ps.any (fun p => p.1.isEmpty || p.2.isEmpty) = false →
        (∃ p ∈ ps, lowerStr p.1 = chars "subscriptions") →
        (∃ p ∈ ps, lowerStr p.1 = chars "resourcegroups") →
        (∀ p ∈ ps, lowerStr p.1 ≠ chars "tags") →
        TagID input = .error (chars "ID was missing the tags element")) := by
  have hmain : ps.any (fun p => p.1.isEmpty || p.2.isEmpty) = false →
      TagID input = tagIDChecks input (buildResourceID ps) := by
    intro hany
    unfold TagID ParseAzureResourceID
    rw [hps]
    simp [hany]
  refine ⟨?_, ?_, ?_, ?_⟩
  · intro hany
    unfold TagID ParseAzureResourceID
    rw [hps]
    simp [hany]
  · intro hany hnone
    have hlook : lookupKey (chars "subscriptions") (ps.map lowerPair) = none := by
      refine lookupKey_eq_none _ _ ?_
      intro q hq
      obtain ⟨p, hp, rfl⟩ := List.mem_map.mp hq
      exact hnone p hp
    have hfield : (buildResourceID ps).subscriptionID = [] := by
      show extractVal (chars "subscriptions") (ps.map lowerPair) = []
      unfold extractVal
      rw [hlook]
    rw [hmain hany]
    exact tagIDChecks_missing_subs input _ hfield
  · intro hany hsub hnone
    have hsubm : ∃ q ∈ ps.map lowerPair, q.1 = chars "subscriptions" := by
      obtain ⟨p, hp, he⟩ := hsub
      exact ⟨lowerPair p, List.mem_map_of_mem lowerPair hp, he⟩
    obtain ⟨v, hv⟩ := lookupKey_isSome _ _ hsubm
    have hvne : v ≠ [] := lookup_val_ne_nil ps _ v hany (lookupKey_mem _ _ _ hv)
    have hfield1 : (buildResourceID ps).subscriptionID = v := by
      show extractVal (chars "subscriptions") (ps.map lowerPair) = v
      unfold extractVal
      rw [hv]
    have hrest : extractRest (chars "subscriptions") (ps.map lowerPair)
        = removeKey (chars "subscriptions") (ps.map lowerPair) := by
      unfold extractRest
      rw [hv]
    have hlookr : lookupKey (chars "resourcegroups")
        (removeKey (chars "subscriptions") (ps.map lowerPair)) = none := by
      refine lookupKey_eq_none _ _ ?_
      intro q hq
      have hq2 := mem_removeKey _ _ _ hq
      obtain ⟨p, hp, rfl⟩ := List.mem_map.mp hq2
      exact hnone p hp
    have hfield2 : (buildResourceID ps).resourceGroup = [] := by
      show extractVal (chars "resourcegroups")
        (extractRest (chars "subscriptions") (ps.map lowerPair)) = []
      rw [hrest]
      unfold extractVal
      rw [hlookr]
    rw [hmain hany]
    refine tagIDChecks_missing_rgs input _ ?_ hfield2
    rw [hfield1]
    exact hvne
  · intro hany hsub hrg hnone
    have hsubm : ∃ q ∈ ps.map lowerPair, q.1 = chars "subscriptions" := by
      obtain ⟨p, hp, he⟩ := hsub
      exact ⟨lowerPair p, List.mem_map_of_mem lowerPair hp, he⟩
    obtain ⟨v1, hv1⟩ := lookupKey_isSome _ _ hsubm
    have hv1ne : v1 ≠ [] := lookup_val_ne_nil ps _ v1 hany (lookupKey_mem _ _ _ hv1)
    have hfield1 : (buildResourceID ps).subscriptionID = v1 := by
      show extractVal (chars "subscriptions") (ps.map lowerPair) = v1
      unfold extractVal
      rw [hv1]
    have hrest : extractRest (chars "subscriptions") (ps.map lowerPair)
        = removeKey (chars "subscriptions") (ps.map lowerPair) := by
      unfold extractRest
      rw [hv1]
    have hrgm : ∃ q ∈ removeKey (chars "subscriptions") (ps.map lowerPair),
        q.1 = chars "resourcegroups" := by
      obtain ⟨p, hp, he⟩ := hrg
      refine ⟨lowerPair p, ?_, he⟩
      refine mem_removeKey_of_ne _ _ _ (List.mem_map_of_mem lowerPair hp) ?_
      show lowerStr p.1 ≠ chars "subscriptions"
      rw [he]
      decide
    obtain ⟨v2, hv2⟩ := lookupKey_isSome _ _ hrgm
    have hv2ne : v2 ≠ [] := by
      have hmem2 : (chars "resourcegroups", v2) ∈ ps.map lowerPair :=
        mem_removeKey _ _ _ (lookupKey_mem _ _ _ hv2)
      exact lookup_val_ne_nil ps _ v2 hany hmem2
    have hfield2 : (buildResourceID ps).resourceGroup = v2 := by
      show extractVal (chars "resourcegroups")
        (extractRest (chars "subscriptions") (ps.map lowerPair)) = v2
      rw [hrest]
      unfold extractVal
      rw [hv2]
    have htags : lookupKey (chars "tags") (buildResourceID ps).path = none := by
      show lookupKey (chars "tags")
        (extractRest (chars "providers") (extractRest (chars "resourcegroups")
          (extractRest (chars "subscriptions") (ps.map lowerPair)))) = none
      refine lookupKey_eq_none _ _ ?_
      intro q hq
      have hq2 := mem_extractRest _ _ _ (mem_extractRest _ _ _ (mem_extractRest _ _ _ hq))
      obtain ⟨p, hp, rfl⟩ := List.mem_map.mp hq2
      exact hnone p hp
    rw [hmain hany]
    refine tagIDChecks_missing_tags input _ ?_ ?_ htags
    · rw [hfield1]
      exact hv1ne
    · rw [hfield2]
      exact hv2ne

/-- Witness for C4: concrete inputs lacking the subscriptions segment, the
resourceGroups segment, and the tags segment fail with the corresponding
errors, and an input with an empty subscriptions value fails as well. -/
theorem TagID_missingSegments_witness :
    TagID (chars "/providers/p/tags/t")
        = .error (chars "ID was missing the subscriptions element")
    ∧ TagID (chars "/subscriptions/s/providers/p/tags/t")
        = .error (chars "ID was missing the resourceGroups element")
    ∧ TagID (chars "/subscriptions/s/resourceGroups/g/providers/p")
        = .error (chars "ID was missing the tags element")
    ∧ TagID (chars "/subscriptions//resourceGroups/g/tags/t")
        = .error (chars "key and value segments cannot be empty strings in "
            ++ chars "/subscriptions//resourceGroups/g/tags/t") := by
  refine ⟨?_, ?_, ?_, ?_⟩
  · exact (TagID_missingSegments (chars "/providers/p/tags/t")
      [(chars "providers", chars "p"), (chars "tags", chars "t")] rfl).2.1
      (by decide) (by decide)
  · exact (TagID_missingSegments (chars "/subscriptions/s/providers/p/tags/t")
      [(chars "subscriptions", chars "s"), (chars "providers", chars "p"),
       (chars "tags", chars "t")] rfl).2.2.1
      (by decide) (by decide) (by decide)
  · exact (TagID_missingSegments (chars "/subscriptions/s/resourceGroups/g/providers/p")
      [(chars "subscriptions", chars "s"), (chars "resourceGroups", chars "g"),
       (chars "providers", chars "p")] rfl).2.2.2
      (by decide) (by decide) (by decide) (by decide)
  · exact (TagID_missingSegments (chars "/subscriptions//resourceGroups/g/tags/t")
      [(chars "subscriptions", []), (chars "resourceGroups", chars "g"),
       (chars "tags", chars "t")] rfl).1
      (by decide)

/-- C5: parsing depends on segment keys only through their lowercased
form while values are untouched: two segment-structured inputs whose keys
agree after lowercasing and whose values agree verbatim parse to the same
result (the same identity, or failure in both). -/
theorem TagID_keyCaseInsensitive (ps qs : List (Str × Str))
    (hmap : ps.map lowerPair = qs.map lowerPair)
    (hp : ∀ p ∈ ps, '/' ∉ p.1 ∧ '/' ∉ p.2)
    (hq : ∀ p ∈ qs, '/' ∉ p.1 ∧ '/' ∉ p.2) :
    exceptOk (TagID ('/' :: joinSlash (interleave ps)))
      = exceptOk (TagID ('/' :: joinSlash (interleave qs))) := by
  cases ps with
  | nil =>
    have hqnil : qs = [] := by
      cases qs with
      | nil => rfl
      | cons q qt => simp [lowerPair] at hmap
    subst hqnil
    rfl
  | cons p pt =>
    have hqs : qs ≠ [] := by
      intro hcon
      subst hcon
      simp [lowerPair] at hmap
    obtain ⟨q, qt, rfl⟩ := List.exists_cons_of_ne_nil hqs
    have hsplit1 : splitOnSlash (stripLeadingSlash ('/' :: joinSlash (interleave (p :: pt))))
        = interleave (p :: pt) := by
      rw [stripLeadingSlash_cons]
      refine splitOnSlash_joinSlash _ (by simp [interleave]) ?_
      intro x hx
      obtain ⟨r, hr, hor⟩ := mem_interleave _ _ hx
      rcases hor with rfl | rfl
      · exact (hp r hr).1
      · exact (hp r hr).2
    have hsplit2 : splitOnSlash (stripLeadingSlash ('/' :: joinSlash (interleave (q :: qt))))
        = interleave (q :: qt) := by
      rw [stripLeadingSlash_cons]
      refine splitOnSlash_joinSlash _ (by simp [interleave]) ?_
      intro x hx
      obtain ⟨r, hr, hor⟩ := mem_interleave _ _ hx
      rcases hor with rfl | rfl
      · exact (hq r hr).1
      · exact (hq r hr).2
    have hany : (p :: pt).any (fun r => r.1.isEmpty || r.2.isEmpty)
        = (q :: qt).any (fun r => r.1.isEmpty || r.2.isEmpty) := by
      rw [← any_empty_lowerPair (p :: pt), ← any_empty_lowerPair (q :: qt), hmap]
    have hbuild : buildResourceID (p :: pt) = buildResourceID (q :: qt) :=
      congrArg buildFromPath hmap
    unfold TagID ParseAzureResourceID segPairs
    rw [hsplit1, hsplit2, pairUp_interleave, pairUp_interleave]
    cases hpa : (p :: pt).any (fun r => r.1.isEmpty || r.2.isEmpty) with
    | true =>
      have hqa : (q :: qt).any (fun r => r.1.isEmpty || r.2.isEmpty) = true := by
        rw [← hany, hpa]
      simp [hpa, hqa, exceptOk]
    | false =>
      have hqa : (q :: qt).any (fun r => r.1.isEmpty || r.2.isEmpty) = false := by
        rw [← hany, hpa]
      simp only [hpa, hqa, Bool.false_eq_true, if_false]
      rw [hbuild]
      exact exceptOk_tagIDChecks _ _ _

/-- Witness for C5: the lowercased-keys form and the canonically-cased
form of the same identifier parse to the same result. -/
theorem TagID_keyCaseInsensitive_witness :
    exceptOk (TagID (chars "/subscriptions/x/resourcegroups/y/providers/p/TAGS/z"))
      = exceptOk (TagID (chars "/subscriptions/x/resourceGroups/y/providers/p/tags/z")) :=
  TagID_keyCaseInsensitive
    [(chars "subscriptions", chars "x"), (chars "resourcegroups", chars "y"),
     (chars "providers", chars "p"), (chars "TAGS", chars "z")]
    [(chars "subscriptions", chars "x"), (chars "resourceGroups", chars "y"),
     (chars "providers", chars "p"), (chars "tags", chars "z")]
    (by decide) (by decide) (by decide)

/-- C2: evaluating the codec at the claimed example shows the divergence:
the renderer accepts only three fields and emits the
Microsoft.AnalysisServices form without any service segment, and the
claimed canonical Microsoft.ApiManagement string does not parse (the
service segment is left unconsumed). -/
theorem TagID_exampleDivergence :
    (NewTagID (chars "sub1") (chars "rg1") (chars "tag1")).ID
        = chars "/subscriptions/sub1/resourceGroups/rg1/providers/Microsoft.AnalysisServices/tags/tag1"
      ∧ exceptOk (TagID (chars "/subscriptions/sub1/resourceGroups/rg1/providers/Microsoft.ApiManagement/service/svc1/tags/tag1")) = none :=
  ⟨rfl, rfl⟩

/-- C9: the identity type the codec constructs has only three fields and
NewTagID performs no validation, so an all-empty identity is constructed;
the canonical form the parser accepts carries three values with no service
segment, and the four-value service form is rejected. -/
theorem TagId_invariantDivergence :
    NewTagID [] [] [] = TagId.mk [] [] []
      ∧ exceptOk (TagID (chars "/subscriptions/s/resourceGroups/g/providers/Microsoft.AnalysisServices/tags/t"))
          = some (TagId.mk (chars "s") (chars "g") (chars "t"))
      ∧ exceptOk (TagID (chars "/subscriptions/s/resourceGroups/g/providers/Microsoft.ApiManagement/service/v/tags/t")) = none :=
  ⟨rfl, rfl, rfl⟩

/-- C6: on first-time creation the presence check guards creation: a
successful presence read returning a non-empty identity fails with
alreadyExists and no create call is issued; a not-found presence failure
proceeds to the create call; any other presence failure is surfaced as
remoteCallFailed with no create call issued. -/
theorem createUpdate_guard (client : TagClient) (tailRead : ResourceData → Outcome)
    (d : ResourceData) (hnew : d.isNewResource = true) :
    ((client.get d.resource_group_name d.api_management_name d.tag_id).err = false →
      ∀ s, (client.get d.resource_group_name d.api_management_name d.tag_id).id = some s →
        s ≠ [] →
        resourceApiManagementTagCreateUpdate client tailRead d
          = (d, some (.alreadyExists (chars "azurerm_api_management_tag") s),
              [RemoteCall.get d.resource_group_name d.api_management_name d.tag_id]))
    ∧ ((client.get d.resource_group_name d.api_management_name d.tag_id).err = true →
       (client.get d.resource_group_name d.api_management_name d.tag_id).notFound = true →
       (client.get d.resource_group_name d.api_management_name d.tag_id).id = none →
        ((resourceApiManagementTagCreateUpdate client tailRead d).2.2).take 2
          = [RemoteCall.get d.resource_group_name d.api_management_name d.tag_id,
             RemoteCall.createOrUpdate d.resource_group_name d.api_management_name
               d.tag_id d.display_name])
    ∧ ((client.get d.resource_group_name d.api_management_name d.tag_id).err = true →
       (client.get d.resource_group_name d.api_management_name d.tag_id).notFound = false →
        resourceApiManagementTagCreateUpdate client tailRead d
          = (d, some (.remoteCallFailed
                (chars "checking for presence of existing Tag " ++ d.tag_id)),
              [RemoteCall.get d.resource_group_name d.api_management_name d.tag_id])) := by
  refine ⟨?_, ?_, ?_⟩
  · intro herr s hid hsne
    unfold resourceApiManagementTagCreateUpdate
    simp [hnew, herr, hid, hsne]
  · intro herr hnf hid
    unfold resourceApiManagementTagCreateUpdate
    cases hcr : (client.createOrUpdate d.resource_group_name d.api_management_name
        d.tag_id d.display_name).err with
    | true => simp [hnew, herr, hnf, hid, hcr]
    | false => simp [hnew, herr, hnf, hid, hcr]
  · intro herr hnf
    unfold resourceApiManagementTagCreateUpdate
    simp [hnew, herr, hnf]

/-- Witness for C6: the three guard behaviours at concrete clients. -/
theorem createUpdate_guard_witness :
    resourceApiManagementTagCreateUpdate
        ⟨fun _ _ _ => ⟨false, false, some (chars "rid"), none⟩,
         fun _ _ _ _ => ⟨false, false⟩, fun _ _ _ => ⟨false, false⟩⟩
        (fun d0 => (d0, none, []))
        ⟨[], chars "t1", chars "rg", chars "svc", chars "dn", true⟩
      = (⟨[], chars "t1", chars "rg", chars "svc", chars "dn", true⟩,
          some (.alreadyExists (chars "azurerm_api_management_tag") (chars "rid")),
          [RemoteCall.get (chars "rg") (chars "svc") (chars "t1")])
    ∧ ((resourceApiManagementTagCreateUpdate
        ⟨fun _ _ _ => ⟨true, true, none, none⟩,
         fun _ _ _ _ => ⟨false, false⟩, fun _ _ _ => ⟨false, false⟩⟩
        (fun d0 => (d0, none, []))
        ⟨[], chars "t1", chars "rg", chars "svc", chars "dn", true⟩).2.2).take 2
      = [RemoteCall.get (chars "rg") (chars "svc") (chars "t1"),
         RemoteCall.createOrUpdate (chars "rg") (chars "svc") (chars "t1") (chars "dn")]
    ∧ resourceApiManagementTagCreateUpdate
        ⟨fun _ _ _ => ⟨true, false, none, none⟩,
         fun _ _ _ _ => ⟨false, false⟩, fun _ _ _ => ⟨false, false⟩⟩
        (fun d0 => (d0, none, []))
        ⟨[], chars "t1", chars "rg", chars "svc", chars "dn", true⟩
      = (⟨[], chars "t1", chars "rg", chars "svc", chars "dn", true⟩,
          some (.remoteCallFailed
            (chars "checking for presence of existing Tag " ++ chars "t1")),
          [RemoteCall.get (chars "rg") (chars "svc") (chars "t1")]) := by
  refine ⟨?_, ?_, ?_⟩
  · exact (createUpdate_guard
      ⟨fun _ _ _ => ⟨false, false, some (chars "rid"), none⟩,
       fun _ _ _ _ => ⟨false, false⟩, fun _ _ _ => ⟨false, false⟩⟩
      (fun d0 => (d0, none, []))
      ⟨[], chars "t1", chars "rg", chars "svc", chars "dn", true⟩ rfl).1
      rfl (chars "rid") rfl (by decide)
  · exact (createUpdate_guard
      ⟨fun _ _ _ => ⟨true, true, none, none⟩,
       fun _ _ _ _ => ⟨false, false⟩, fun _ _ _ => ⟨false, false⟩⟩
      (fun d0 => (d0, none, []))
      ⟨[], chars "t1", chars "rg", chars "svc", chars "dn", true⟩ rfl).2.1
      rfl rfl rfl
  · exact (createUpdate_guard
      ⟨fun _ _ _ => ⟨true, false, none, none⟩,
       fun _ _ _ _ => ⟨false, false⟩, fun _ _ _ => ⟨false, false⟩⟩
      (fun d0 => (d0, none, []))
      ⟨[], chars "t1", chars "rg", chars "svc", chars "dn", true⟩ rfl).2.2
      rfl rfl

/-- C7: after a successful create-or-update call the resource is re-read:
a failing confirming read surfaces remoteCallFailed, a successful read
with no identity fails with the distinct emptyIdentity condition, and a
successful read with an identity persists it as the durable handle before
the trailing refresh runs. -/
theorem createUpdate_confirm (client : TagClient) (tailRead : ResourceData → Outcome)
    (d : ResourceData) (hold : d.isNewResource = false)
    (hcr : (client.createOrUpdate d.resource_group_name d.api_management_name
        d.tag_id d.display_name).err = false) :
    ((client.get d.resource_group_name d.api_management_name d.tag_id).err = true →
        resourceApiManagementTagCreateUpdate client tailRead d
          = (d, some (.remoteCallFailed (chars "retrieving Tag " ++ d.tag_id)),
              [RemoteCall.createOrUpdate d.resource_group_name d.api_management_name
                 d.tag_id d.display_name,
               RemoteCall.get d.resource_group_name d.api_management_name d.tag_id]))
    ∧ ((client.get d.resource_group_name d.api_management_name d.tag_id).err = false →
       (client.get d.resource_group_name d.api_management_name d.tag_id).id = none →
        resourceApiManagementTagCreateUpdate client tailRead d
          = (d, some (.emptyIdentity (chars "Cannot read ID for Tag " ++ d.tag_id)),
              [RemoteCall.createOrUpdate d.resource_group_name d.api_management_name
                 d.tag_id d.display_name,
               RemoteCall.get d.resource_group_name d.api_management_name d.tag_id]))
    ∧ (∀ s, (client.get d.resource_group_name d.api_management_name d.tag_id).err = false →
       (client.get d.resource_group_name d.api_management_name d.tag_id).id = some s →
        resourceApiManagementTagCreateUpdate client tailRead d
          = ((tailRead { d with id := s }).1, (tailRead { d with id := s }).2.1,
              [RemoteCall.createOrUpdate d.resource_group_name d.api_management_name
                 d.tag_id d.display_name,
               RemoteCall.get d.resource_group_name d.api_management_name d.tag_id]
                ++ (tailRead { d with id := s }).2.2)) := by
  refine ⟨?_, ?_, ?_⟩
  · intro herr
    unfold resourceApiManagementTagCreateUpdate
    simp [hold, hcr, herr]
  · intro herr hid
    unfold resourceApiManagementTagCreateUpdate
    simp [hold, hcr, herr, hid]
  · intro s herr hid
    unfold resourceApiManagementTagCreateUpdate
    simp [hold, hcr, herr, hid]

/-- Witness for C7: the confirming-read outcomes at concrete clients. -/
theorem createUpdate_confirm_witness :
    resourceApiManagementTagCreateUpdate
        ⟨fun _ _ _ => ⟨true, false, none, none⟩,
         fun _ _ _ _ => ⟨false, false⟩, fun _ _ _ => ⟨false, false⟩⟩
        (fun d0 => (d0, none, []))
        ⟨chars "old", chars "t1", chars "rg", chars "svc", chars "dn", false⟩
      = (⟨chars "old", chars "t1", chars "rg", chars "svc", chars "dn", false⟩,
          some (.remoteCallFailed (chars "retrieving Tag " ++ chars "t1")),
          [RemoteCall.createOrUpdate (chars "rg") (chars "svc") (chars "t1") (chars "dn"),
           RemoteCall.get (chars "rg") (chars "svc") (chars "t1")])
    ∧ resourceApiManagementTagCreateUpdate
        ⟨fun _ _ _ => ⟨false, false, none, none⟩,
         fun _ _ _ _ => ⟨false, false⟩, fun _ _ _ => ⟨false, false⟩⟩
        (fun d0 => (d0, none, []))
        ⟨chars "old", chars "t1", chars "rg", chars "svc", chars "dn", false⟩
      = (⟨chars "old", chars "t1", chars "rg", chars "svc", chars "dn", false⟩,
          some (.emptyIdentity (chars "Cannot read ID for Tag " ++ chars "t1")),
          [RemoteCall.createOrUpdate (chars "rg") (chars "svc") (chars "t1") (chars "dn"),
           RemoteCall.get (chars "rg") (chars "svc") (chars "t1")])
    ∧ resourceApiManagementTagCreateUpdate
        ⟨fun _ _ _ => ⟨false, false, some (chars "newid"), none⟩,
         fun _ _ _ _ => ⟨false, false⟩, fun _ _ _ => ⟨false, false⟩⟩
        (fun d0 => (d0, none, []))
        ⟨chars "old", chars "t1", chars "rg", chars "svc", chars "dn", false⟩
      = (⟨chars "newid", chars "t1", chars "rg", chars "svc", chars "dn", false⟩,
          none,
          [RemoteCall.createOrUpdate (chars "rg") (chars "svc") (chars "t1") (chars "dn"),
           RemoteCall.get (chars "rg") (chars "svc") (chars "t1")]) := by
  refine ⟨?_, ?_, ?_⟩
  · exact (createUpdate_confirm
      ⟨fun _ _ _ => ⟨true, false, none, none⟩,
       fun _ _ _ _ => ⟨false, false⟩, fun _ _ _ => ⟨false, false⟩⟩
      (fun d0 => (d0, none, []))
      ⟨chars "old", chars "t1", chars "rg", chars "svc", chars "dn", false⟩ rfl rfl).1 rfl
  · exact (createUpdate_confirm
      ⟨fun _ _ _ => ⟨false, false, none, none⟩,
       fun _ _ _ _ => ⟨false, false⟩, fun _ _ _ => ⟨false, false⟩⟩
      (fun d0 => (d0, none, []))
      ⟨chars "old", chars "t1", chars "rg", chars "svc", chars "dn", false⟩ rfl rfl).2.1 rfl rfl
  · exact (createUpdate_confirm
      ⟨fun _ _ _ => ⟨false, false, some (chars "newid"), none⟩,
       fun _ _ _ _ => ⟨false, false⟩, fun _ _ _ => ⟨false, false⟩⟩
      (fun d0 => (d0, none, []))
      ⟨chars "old", chars "t1", chars "rg", chars "svc", chars "dn", false⟩ rfl rfl).2.2
      (chars "newid") rfl rfl

/-- C8: a not-found signal is never surfaced as an error: read drops the
handle and succeeds when the remote get reports not-found, delete
succeeds when the remote delete reports not-found (so two consecutive
deletes both succeed), and every other remote failure in these operations
is remoteCallFailed. -/
theorem readDelete_notFound (client client2 : TagClient) (d : ResourceData)
    (tid : ResourceIdentity) (hp : parseResourceIdentity d.id = .ok tid) :
    ((client.get tid.resourceGroup tid.serviceName tid.name).err = true →
     (client.get tid.resourceGroup tid.serviceName tid.name).notFound = true →
        resourceApiManagementTagRead client d
          = ({ d with id := [] }, none,
              [RemoteCall.get tid.resourceGroup tid.serviceName tid.name]))
    ∧ ((client.get tid.resourceGroup tid.serviceName tid.name).err = true →
       (client.get tid.resourceGroup tid.serviceName tid.name).notFound = false →
        resourceApiManagementTagRead client d
          = (d, some (.remoteCallFailed (chars "making Read request on Tag " ++ tid.name)),
              [RemoteCall.get tid.resourceGroup tid.serviceName tid.name]))
    ∧ ((client.delete tid.resourceGroup tid.serviceName tid.name).err = false →
        resourceApiManagementTagDelete client d
          = (d, none, [RemoteCall.delete tid.resourceGroup tid.serviceName tid.name]))
    ∧ ((client.delete tid.resourceGroup tid.serviceName tid.name).err = true →
       (client.delete tid.resourceGroup tid.serviceName tid.name).notFound = true →
        resourceApiManagementTagDelete client d
          = (d, none, [RemoteCall.delete tid.resourceGroup tid.serviceName tid.name]))
    ∧ ((client.delete tid.resourceGroup tid.serviceName tid.name).err = true →
       (client.delete tid.resourceGroup tid.serviceName tid.name).notFound = false →
        resourceApiManagementTagDelete client d
          = (d, some (.remoteCallFailed (chars "deleting Tag " ++ tid.name)),
              [RemoteCall.delete tid.resourceGroup tid.serviceName tid.name]))
    ∧ ((client.delete tid.resourceGroup tid.serviceName tid.name).err = false →
       (client2.delete tid.resourceGroup tid.serviceName tid.name).err = true →
       (client2.delete tid.resourceGroup tid.serviceName tid.name).notFound = true →
        (resourceApiManagementTagDelete client d).2.1 = none
          ∧ (resourceApiManagementTagDelete client2 d).2.1 = none) := by
  refine ⟨?_, ?_, ?_, ?_, ?_, ?_⟩
  · intro herr hnf
    unfold resourceApiManagementTagRead
    simp [hp, herr, hnf]
  · intro herr hnf
    unfold resourceApiManagementTagRead
    simp [hp, herr, hnf]
  · intro herr
    unfold resourceApiManagementTagDelete
    simp [hp, herr]
  · intro herr hnf
    unfold resourceApiManagementTagDelete
    simp [hp, herr, hnf]
  · intro herr hnf
    unfold resourceApiManagementTagDelete
    simp [hp, herr, hnf]
  · intro herr herr2 hnf2
    constructor
    · unfold resourceApiManagementTagDelete
      simp [hp, herr]
    · unfold resourceApiManagementTagDelete
      simp [hp, herr2, hnf2]

/-- Witness for C8: drop-on-missing read and idempotent double delete at
concrete clients and a concrete parseable handle. -/
theorem readDelete_notFound_witness :
    resourceApiManagementTagRead
        ⟨fun _ _ _ => ⟨true, true, none, none⟩,
         fun _ _ _ _ => ⟨false, false⟩, fun _ _ _ => ⟨false, false⟩⟩
        ⟨chars "/subscriptions/s/resourceGroups/g/providers/Microsoft.ApiManagement/service/svc/tags/t",
         chars "t", chars "g", chars "svc", chars "dn", false⟩
      = (⟨[], chars "t", chars "g", chars "svc", chars "dn", false⟩,
          none, [RemoteCall.get (chars "g") (chars "svc") (chars "t")])
    ∧ ((resourceApiManagementTagDelete
        ⟨fun _ _ _ => ⟨true, true, none, none⟩,
         fun _ _ _ _ => ⟨false, false⟩, fun _ _ _ => ⟨false, false⟩⟩
        ⟨chars "/subscriptions/s/resourceGroups/g/providers/Microsoft.ApiManagement/service/svc/tags/t",
         chars "t", chars "g", chars "svc", chars "dn", false⟩).2.1 = none
      ∧ (resourceApiManagementTagDelete
        ⟨fun _ _ _ => ⟨true, true, none, none⟩,
         fun _ _ _ _ => ⟨false, false⟩, fun _ _ _ => ⟨true, true⟩⟩
        ⟨chars "/subscriptions/s/resourceGroups/g/providers/Microsoft.ApiManagement/service/svc/tags/t",
         chars "t", chars "g", chars "svc", chars "dn", false⟩).2.1 = none) := by
  constructor
  · exact (readDelete_notFound
      ⟨fun _ _ _ => ⟨true, true, none, none⟩,
       fun _ _ _ _ => ⟨false, false⟩, fun _ _ _ => ⟨false, false⟩⟩
      ⟨fun _ _ _ => ⟨true, true, none, none⟩,
       fun _ _ _ _ => ⟨false, false⟩, fun _ _ _ => ⟨true, true⟩⟩
      ⟨chars "/subscriptions/s/resourceGroups/g/providers/Microsoft.ApiManagement/service/svc/tags/t",
       chars "t", chars "g", chars "svc", chars "dn", false⟩
      ⟨chars "s", chars "g", chars "svc", chars "t"⟩ rfl).1 rfl rfl
  · exact (readDelete_notFound
      ⟨fun _ _ _ => ⟨true, true, none, none⟩,
       fun _ _ _ _ => ⟨false, false⟩, fun _ _ _ => ⟨false, false⟩⟩
      ⟨fun _ _ _ => ⟨true, true, none, none⟩,
       fun _ _ _ _ => ⟨false, false⟩, fun _ _ _ => ⟨true, true⟩⟩
      ⟨chars "/subscriptions/s/resourceGroups/g/providers/Microsoft.ApiManagement/service/svc/tags/t",
       chars "t", chars "g", chars "svc", chars "dn", false⟩
      ⟨chars "s", chars "g", chars "svc", chars "t"⟩ rfl).2.2.2.2.2 rfl rfl rfl

/-- C10: when the stored handle does not parse, read and delete return
the parse error with no remote call issued and the resource state
unchanged. -/
theorem readDelete_malformed (client : TagClient) (d : ResourceData) (e : Str)
    (hp : parseResourceIdentity d.id = .error e) :
    resourceApiManagementTagRead client d = (d, some (.malformedIdentifier e), [])
    ∧ resourceApiManagementTagDelete client d = (d, some (.malformedIdentifier e), []) := by
  constructor
  · unfold resourceApiManagementTagRead
    simp [hp]
  · unfold resourceApiManagementTagDelete
    simp [hp]

/-- Witness for C10: an unparseable handle makes read and delete fail
with the parse error, issuing no remote call and leaving the state
unchanged. -/
theorem readDelete_malformed_witness :
    resourceApiManagementTagRead
        ⟨fun _ _ _ => ⟨false, false, none, none⟩,
         fun _ _ _ _ => ⟨false, false⟩, fun _ _ _ => ⟨false, false⟩⟩
        ⟨chars "bogus", chars "t", chars "g", chars "svc", chars "dn", false⟩
      = (⟨chars "bogus", chars "t", chars "g", chars "svc", chars "dn", false⟩,
          some (.malformedIdentifier
            (chars "the number of path segments is not divisible by 2 in " ++ chars "bogus")),
          [])
    ∧ resourceApiManagementTagDelete
        ⟨fun _ _ _ => ⟨false, false, none, none⟩,
         fun _ _ _ _ => ⟨false, false⟩, fun _ _ _ => ⟨false, false⟩⟩
        ⟨chars "bogus", chars "t", chars "g", chars "svc", chars "dn", false⟩
      = (⟨chars "bogus", chars "t", chars "g", chars "svc", chars "dn", false⟩,
          some (.malformedIdentifier
            (chars "the number of path segments is not divisible by 2 in " ++ chars "bogus")),
          []) :=
  readDelete_malformed
    ⟨fun _ _ _ => ⟨false, false, none, none⟩,
     fun _ _ _ _ => ⟨false, false⟩, fun _ _ _ => ⟨false, false⟩⟩
    ⟨chars "bogus", chars "t", chars "g", chars "svc", chars "dn", false⟩
    (chars "the number of path segments is not divisible by 2 in " ++ chars "bogus") rfl

end AzureRM
